import Mathlib

/-!
Verification of the arlington_weather daily-series / climatology pipeline.

Shallow embedding of `update_noaa_and_build_site.py` (parser, wide
conversion, one-day-gap imputation, day-of-year normalisation, percentile
climatology, main control flow) and of the `DOY_365` derivation in
`build_dataset.py`.  Machine integers are modelled as `Int`, pandas
nullable decimal values as `Option ℚ`, fallible Python code as
`Except String`.
-/

namespace ArlingtonWeather

/-- Proleptic Gregorian leap-year test (`pandas.Timestamp.is_leap_year`,
`Date.dt.is_leap_year`). -/
def isLeapYear (y : Int) : Bool :=
  (y % 4 == 0 && y % 100 != 0) || y % 400 == 0

/-- Cumulative number of days before month `m` in a non-leap year. -/
def cumDays (m : Int) : Int :=
  if m ≤ 1 then 0
  else if m = 2 then 31
  else if m = 3 then 59
  else if m = 4 then 90
  else if m = 5 then 120
  else if m = 6 then 151
  else if m = 7 then 181
  else if m = 8 then 212
  else if m = 9 then 243
  else if m = 10 then 273
  else if m = 11 then 304
  else 334

/-- Number of days of month `m` of year `y`, as accepted by the
`datetime.date` constructor. -/
def daysInMonth (y m : Int) : Int :=
  if m = 2 then (if isLeapYear y then 29 else 28)
  else if m = 4 ∨ m = 6 ∨ m = 9 ∨ m = 11 then 30
  else 31

/-- A calendar date as carried around by the Python code
(the year/month/day fields of a `datetime.date`). -/
structure Date where
  year : Int
  month : Int
  day : Int
deriving DecidableEq, Repr

/-- The range check performed by the `datetime.date` constructor
(`ValueError` on violation). -/
def Date.valid (d : Date) : Bool :=
  decide (1 ≤ d.year ∧ d.year ≤ 9999 ∧ 1 ≤ d.month ∧ d.month ≤ 12 ∧
    1 ≤ d.day ∧ d.day ≤ daysInMonth d.year d.month)

/-- The 1-based ordinal day of the year, Feb 29 included
(pandas `.dayofyear`; `DOY_366` in the spec). -/
def dayOfYear (d : Date) : Int :=
  cumDays d.month + (if isLeapYear d.year ∧ 2 < d.month then 1 else 0) + d.day

/-- The function `to_doy365` (`update_noaa_and_build_site.py`, lines 169-176):
day-of-year; Feb 29 is mapped to `59`, and days after Feb 28 of a leap
year are shifted down by one. -/
def to_doy365 (d : Date) : Int :=
  let doy := dayOfYear d
  if d.month = 2 ∧ d.day = 29 then 59
  else if isLeapYear d.year ∧ 2 < d.month then doy - 1
  else doy

/-- The content of the `DOY_365` cell of the daily table built by
`update_noaa_and_build_site.py` (`out["DOY_365"] = out["date"].map(to_doy365)`):
the value is always populated, never the missing sentinel. -/
def doy365Column (d : Date) : Option Int := some (to_doy365 d)

/-- The `DOY_365` column of `build_dataset.py` (lines 30-37): start from
`DOY_366`, subtract 1 when the year is leap and `DOY_366 > 59`, then
overwrite Feb 29 rows with the missing sentinel (`np.nan`). -/
def bd_doy365 (d : Date) : Option Int :=
  let v366 := dayOfYear d
  let v := if isLeapYear d.year ∧ 59 < v366 then v366 - 1 else v366
  if d.month = 2 ∧ d.day = 29 then none else some v

theorem date_valid_iff (d : Date) : d.valid = true ↔
    (1 ≤ d.year ∧ d.year ≤ 9999 ∧ 1 ≤ d.month ∧ d.month ≤ 12 ∧
      1 ≤ d.day ∧ d.day ≤ daysInMonth d.year d.month) := by
  unfold Date.valid
  exact decide_eq_true_iff

/-- C1 (counterexample): on Feb 29, 2020 — a valid date — the normaliser
`to_doy365` of the pipeline populates the `DOY_365` value with the ordinary
integer `59` (the same index as Feb 28); it does not return the "none"
sentinel, so "returns none if and only if the date is Feb 29" fails at
this input. -/
theorem c1_counterexample :
    Date.valid ⟨2020, 2, 29⟩ = true ∧
    doy365Column ⟨2020, 2, 29⟩ = some 59 ∧
    ¬ (doy365Column ⟨2020, 2, 29⟩ = none ↔
        (⟨2020, 2, 29⟩ : Date).month = 2 ∧ (⟨2020, 2, 29⟩ : Date).day = 29) := by
  decide

/-- C1 (amended): for every valid date, `to_doy365` returns an integer in
`[1, 365]` and never the "none" sentinel — Feb 29 is mapped to `59` —
while the `build_dataset.py` variant `bd_doy365` returns "none" exactly
on Feb 29, agrees with `to_doy365` on all other dates, and otherwise also
lands in `[1, 365]`. -/
theorem c1_amended (d : Date) (h : d.valid = true) :
    (1 ≤ to_doy365 d ∧ to_doy365 d ≤ 365) ∧
    (d.month = 2 ∧ d.day = 29 → to_doy365 d = 59) ∧
    (bd_doy365 d = none ↔ d.month = 2 ∧ d.day = 29) ∧
    (¬ (d.month = 2 ∧ d.day = 29) → bd_doy365 d = some (to_doy365 d)) := by
  rw [date_valid_iff] at h
  obtain ⟨y, m, dd⟩ := d
  simp only at h
  obtain ⟨hy1, hy2, hm1, hm2, hd1, hd2⟩ := h
  cases hL : isLeapYear y <;>
    interval_cases m <;>
    (simp_all [to_doy365, bd_doy365, dayOfYear, cumDays, daysInMonth,
      doy365Column]; try omega)

/-- C1 (witness for the amended theorem): instantiated at the valid date
1995-07-04, where `to_doy365` gives 185 and `bd_doy365` gives `some 185`. -/
theorem c1_amended_witness :
    Date.valid ⟨1995, 7, 4⟩ = true ∧
    ((1 ≤ to_doy365 ⟨1995, 7, 4⟩ ∧ to_doy365 ⟨1995, 7, 4⟩ ≤ 365) ∧
      ((⟨1995, 7, 4⟩ : Date).month = 2 ∧ (⟨1995, 7, 4⟩ : Date).day = 29 →
        to_doy365 ⟨1995, 7, 4⟩ = 59) ∧
      (bd_doy365 ⟨1995, 7, 4⟩ = none ↔
        (⟨1995, 7, 4⟩ : Date).month = 2 ∧ (⟨1995, 7, 4⟩ : Date).day = 29) ∧
      (¬ ((⟨1995, 7, 4⟩ : Date).month = 2 ∧ (⟨1995, 7, 4⟩ : Date).day = 29) →
        bd_doy365 ⟨1995, 7, 4⟩ = some (to_doy365 ⟨1995, 7, 4⟩))) :=
  ⟨by decide, c1_amended ⟨1995, 7, 4⟩ (by decide)⟩

/-! ### Record Parser (`parse_dly_to_df`, lines 85-114) -/

/-- Python string slicing `line[a:b]` (for `0 ≤ a ≤ b`): clamps, never
reads past the end. -/
def pySlice (cs : List Char) (a b : Nat) : List Char :=
  (cs.drop a).take (b - a)

/-- Whitespace characters removed by the Python method `str.strip`. -/
def isPySpace (c : Char) : Bool :=
  c == ' ' || c == '\t' || c == '\n' || c == '\r' || c == '\x0b' || c == '\x0c'

/-- Python `str.strip()`: drop leading and trailing whitespace. -/
def pyStrip (cs : List Char) : List Char :=
  ((cs.dropWhile isPySpace).reverse.dropWhile isPySpace).reverse

/-- All-decimal-digit string to its value; `none` if empty or non-digit. -/
def parseDigits (cs : List Char) : Option Nat :=
  if cs = [] then none
  else if cs.all (·.isDigit) then
    some (cs.foldl (fun acc c => 10 * acc + (c.toNat - 48)) 0)
  else none

/-- Python `int(s)` on the strings this program feeds it: strip
whitespace, optional sign, decimal digits; `none` models the
`ValueError` raised otherwise. -/
def pyInt (cs : List Char) : Option Int :=
  match pyStrip cs with
  | '-' :: rest => (parseDigits rest).map (fun n => -(n : Int))
  | '+' :: rest => (parseDigits rest).map (fun n => (n : Int))
  | t => (parseDigits t).map (fun n => (n : Int))

/-- Python `str.splitlines()` restricted to LF line breaks (the only kind
in `.dly` data): split on every newline, no trailing empty line. -/
def splitlines (cs : List Char) : List (List Char) :=
  if cs = [] then []
  else if cs.getLast? = some '\n' then (cs.splitOnP (· == '\n')).dropLast
  else cs.splitOnP (· == '\n')

/-- The element codes in `VARS` (note: `TAVG` is not among them). -/
inductive Elem
  | TMIN
  | TMAX
  | PRCP
  | SNOW
  | SNWD
deriving DecidableEq, Repr

/-- Recognition of the 4-character element code against `VARS`. -/
def elemOfCode (cs : List Char) : Option Elem :=
  if cs = "TMIN".toList then some .TMIN
  else if cs = "TMAX".toList then some .TMAX
  else if cs = "PRCP".toList then some .PRCP
  else if cs = "SNOW".toList then some .SNOW
  else if cs = "SNWD".toList then some .SNWD
  else none

/-- One row appended to `rows` by the parser:
`(station, date, element, raw-value-or-missing)`. -/
structure RawRecord where
  station : List Char
  date : Date
  element : Elem
  raw : Option Int
deriving DecidableEq, Repr

/-- The body of the inner `for d in range(1, 32)` loop of
`parse_dly_to_df` for one day-slot `d`: parse the 5-character value
(an unparseable slice raises `ValueError` and aborts, exactly as
`int(line[base:base+5])` does), read the quality flag, skip invalid
calendar days, and map `-9999` or a flagged value to missing. -/
def parseDay (line st : List Char) (year month : Int) (e : Elem) (d : Nat) :
    Except String (Option RawRecord) :=
  match pyInt (pySlice line (21 + (d - 1) * 8) (21 + (d - 1) * 8 + 5)) with
  | none => .error "ValueError: int"
  | some val =>
    if (⟨year, month, (d : Int)⟩ : Date).valid = false then .ok none
    else if val = -9999 then .ok (some ⟨st, ⟨year, month, (d : Int)⟩, e, none⟩)
    else if pyStrip (pySlice line (21 + (d - 1) * 8 + 6) (21 + (d - 1) * 8 + 7)) ≠ [] then
      .ok (some ⟨st, ⟨year, month, (d : Int)⟩, e, none⟩)
    else .ok (some ⟨st, ⟨year, month, (d : Int)⟩, e, some val⟩)

/-- One iteration of the outer loop of `parse_dly_to_df`: slice out
station, year, month and element code (year or month that `int` cannot
parse raises `ValueError`), skip lines with unrecognised element codes,
and otherwise run the 31 day-slots in order. -/
def parseLine (line : List Char) : Except String (List RawRecord) :=
  let st := pySlice line 0 11
  match pyInt (pySlice line 11 15) with
  | none => .error "ValueError: int"
  | some year =>
    match pyInt (pySlice line 15 17) with
    | none => .error "ValueError: int"
    | some month =>
      match elemOfCode (pySlice line 17 21) with
      | none => .ok []
      | some e =>
        (List.range' 1 31).foldlM
          (fun acc d =>
            (parseDay line st year month e d).map
              (fun o =>
                match o with
                | none => acc
                | some r => acc ++ [r]))
          []

/-- The parser `parse_dly_to_df`: fold `parseLine` over the lines of the text,
appending rows; the first uncaught `ValueError` aborts the whole parse. -/
def parse_dly_to_df (text : List Char) : Except String (List RawRecord) :=
  (splitlines text).foldlM (fun acc line => (parseLine line).map (fun rs => acc ++ rs)) []

/-- A line all of whose fixed-width integer fields (year, month and the
31 five-character day values) are parseable by `int`. -/
def lineOK (line : List Char) : Prop :=
  (pyInt (pySlice line 11 15)).isSome ∧
  (pyInt (pySlice line 15 17)).isSome ∧
  ∀ d ∈ List.range' 1 31,
    (pyInt (pySlice line (21 + (d - 1) * 8) (21 + (d - 1) * 8 + 5))).isSome

instance (line : List Char) : Decidable (lineOK line) := by
  unfold lineOK; infer_instance

/-- A `.dly` line holding only the first day-slot (21 header characters
plus one 8-character slot, 29 characters in total): days 2..31 are not
present in the line. -/
def c7shortLine : String := "USW00013743199501TMIN  -50   "

theorem parseDay_ok_valid (line st : List Char) (year month : Int) (e : Elem)
    (d : Nat)
    (h : (pyInt (pySlice line (21 + (d - 1) * 8) (21 + (d - 1) * 8 + 5))).isSome) :
    ∃ o, parseDay line st year month e d = .ok o ∧
      ∀ r, o = some r → r.date.valid = true := by
  obtain ⟨v, hv⟩ := Option.isSome_iff_exists.mp h
  by_cases h1 : (⟨year, month, (d : Int)⟩ : Date).valid = false
  · exact ⟨none, by simp [parseDay, hv, h1], by simp⟩
  · have h1v : (⟨year, month, (d : Int)⟩ : Date).valid = true := by
      simpa using h1
    by_cases h2 : v = -9999
    · refine ⟨some ⟨st, ⟨year, month, (d : Int)⟩, e, none⟩,
        by simp [parseDay, hv, h1, h2], ?_⟩
      intro r hr
      injection hr with hr
      subst hr
      exact h1v
    · by_cases h3 :
        pyStrip (pySlice line (21 + (d - 1) * 8 + 6) (21 + (d - 1) * 8 + 7)) = []
      · refine ⟨some ⟨st, ⟨year, month, (d : Int)⟩, e, some v⟩,
          by simp [parseDay, hv, h1, h2, h3], ?_⟩
        intro r hr
        injection hr with hr
        subst hr
        exact h1v
      · refine ⟨some ⟨st, ⟨year, month, (d : Int)⟩, e, none⟩,
          by simp [parseDay, hv, h1, h2, h3], ?_⟩
        intro r hr
        injection hr with hr
        subst hr
        exact h1v

theorem parseDays_ok_valid (line st : List Char) (year month : Int) (e : Elem)
    (ds : List Nat)
    (h : ∀ d ∈ ds,
      (pyInt (pySlice line (21 + (d - 1) * 8) (21 + (d - 1) * 8 + 5))).isSome) :
    ∀ acc, (∀ r ∈ acc, r.date.valid = true) →
      ∃ rs,
        ds.foldlM
          (fun acc d =>
            (parseDay line st year month e d).map
              (fun o =>
                match o with
                | none => acc
                | some r => acc ++ [r]))
          acc = .ok rs ∧ ∀ r ∈ rs, r.date.valid = true := by
  induction ds with
  | nil => exact fun acc hacc => ⟨acc, rfl, hacc⟩
  | cons d ds ih =>
    intro acc hacc
    obtain ⟨o, ho, hval⟩ :=
      parseDay_ok_valid line st year month e d (h d (by simp))
    have hds : ∀ d ∈ ds,
        (pyInt (pySlice line (21 + (d - 1) * 8) (21 + (d - 1) * 8 + 5))).isSome :=
      fun x hx => h x (by simp [hx])
    cases o with
    | none =>
      obtain ⟨rs, hrs, hrsval⟩ := ih hds acc hacc
      refine ⟨rs, ?_, hrsval⟩
      simpa [List.foldlM, ho] using hrs
    | some r =>
      have hr : r.date.valid = true := hval r rfl
      have hacc2 : ∀ x ∈ acc ++ [r], x.date.valid = true := by
        intro x hx
        rcases List.mem_append.mp hx with hx | hx
        · exact hacc x hx
        · simpa [List.mem_singleton.mp hx] using hr
      obtain ⟨rs, hrs, hrsval⟩ := ih hds (acc ++ [r]) hacc2
      refine ⟨rs, ?_, hrsval⟩
      simpa [List.foldlM, ho] using hrs

theorem parseLine_ok_valid (line : List Char) (h : lineOK line) :
    ∃ rs, parseLine line = .ok rs ∧ ∀ r ∈ rs, r.date.valid = true := by
  obtain ⟨h1, h2, h3⟩ := h
  obtain ⟨y, hy⟩ := Option.isSome_iff_exists.mp h1
  obtain ⟨mo, hmo⟩ := Option.isSome_iff_exists.mp h2
  unfold parseLine
  rw [hy, hmo]
  cases he : elemOfCode (pySlice line 17 21) with
  | none => exact ⟨[], rfl, by simp⟩
  | some e =>
    exact parseDays_ok_valid line (pySlice line 0 11) y mo e _ h3 [] (by simp)

/-- C7 (counterexample): a line containing a recognised element but only
one of the 31 day-slots — an input the claim explicitly covers — makes
the Record Parser abort the run with the uncaught `ValueError` raised by
`int("")` on the empty slice of day 2, contradicting "never aborts". -/
theorem c7_counterexample :
    parse_dly_to_df c7shortLine.toList = .error "ValueError: int" := by
  rfl

/-- C7 (amended): the parser does recover from invalid calendar days and
unrecognised element codes by skipping them (every emitted record carries
a valid date, and a line whose element code is not in `VARS` contributes
no records and no error), but only on texts all of whose lines have
parseable year, month and 31 complete 5-character day-value fields; a
line with a recognised element that is shorter than the full 31
day-slots, or any malformed integer field, aborts the run with an
uncaught `ValueError`. -/
theorem c7_amended (text : List Char)
    (h : ∀ line ∈ splitlines text, lineOK line) :
    (∃ recs, parse_dly_to_df text = .ok recs ∧
      ∀ r ∈ recs, r.date.valid = true) ∧
    (∀ line ∈ splitlines text,
      elemOfCode (pySlice line 17 21) = none → parseLine line = .ok []) := by
  constructor
  · unfold parse_dly_to_df
    have main : ∀ (ls : List (List Char)), (∀ line ∈ ls, lineOK line) →
        ∀ acc, (∀ r ∈ acc, r.date.valid = true) →
        ∃ recs,
          ls.foldlM (fun acc line => (parseLine line).map (fun rs => acc ++ rs)) acc
            = .ok recs ∧ ∀ r ∈ recs, r.date.valid = true := by
      intro ls
      induction ls with
      | nil => exact fun _ acc hacc => ⟨acc, rfl, hacc⟩
      | cons l ls ih =>
        intro hls acc hacc
        obtain ⟨rs, hrs, hrsval⟩ := parseLine_ok_valid l (hls l (by simp))
        have hacc2 : ∀ r ∈ acc ++ rs, r.date.valid = true := by
          intro r hr
          rcases List.mem_append.mp hr with hr | hr
          · exact hacc r hr
          · exact hrsval r hr
        obtain ⟨recs, hrecs, hrecsval⟩ :=
          ih (fun x hx => hls x (by simp [hx])) (acc ++ rs) hacc2
        refine ⟨recs, ?_, hrecsval⟩
        simpa [List.foldlM, hrs] using hrecs
    exact main _ h [] (by simp)
  · intro line hline he
    obtain ⟨h1, h2, _⟩ := h line hline
    obtain ⟨y, hy⟩ := Option.isSome_iff_exists.mp h1
    obtain ⟨mo, hmo⟩ := Option.isSome_iff_exists.mp h2
    unfold parseLine
    rw [hy, hmo, he]

/-- The end-to-end scenario input of the spec: one full-width `.dly` line
for station USW00013743, January 1995, element TMIN, with day 1 = -50,
day 2 = -9999 (missing sentinel), day 3 = -30 and all remaining day-slots
-9999, all quality flags blank (21 header characters + 31 slots of 8
characters = 269 characters). -/
def c5text : String :=
  "USW00013743199501TMIN" ++ "  -50   " ++ "-9999   " ++ "  -30   " ++
    String.join (List.replicate 28 "-9999   ")

set_option maxRecDepth 40000 in
/-- C7 (witness for the amended theorem): the scenario line `c5text` has
all integer fields parseable, and on it the parser succeeds with
valid-dated records only. -/
theorem c7_amended_witness :
    (∀ line ∈ splitlines c5text.toList, lineOK line) ∧
    ((∃ recs, parse_dly_to_df c5text.toList = .ok recs ∧
        ∀ r ∈ recs, r.date.valid = true) ∧
     (∀ line ∈ splitlines c5text.toList,
        elemOfCode (pySlice line 17 21) = none → parseLine line = .ok [])) :=
  ⟨by decide, c7_amended c5text.toList (by decide)⟩

/-! ### Series building and unit conversion (`wide_and_convert`, lines 117-149) -/

/-- Python `date.toordinal()`: proleptic Gregorian day number, the model
of chronological order and day differences on dates and Timestamps. -/
def Date.toSerial (d : Date) : Int :=
  365 * (d.year - 1) + (d.year - 1) / 4 - (d.year - 1) / 100 + (d.year - 1) / 400 +
    dayOfYear d

/-- The configured `START_DATE = dt.date(1995, 1, 1)` as a serial number. -/
def START_SERIAL : Int := Date.toSerial ⟨1995, 1, 1⟩

/-- Earliest date representable by a nanosecond `pd.Timestamp`. -/
def TS_MIN_SERIAL : Int := Date.toSerial ⟨1677, 9, 22⟩

/-- Latest date representable by a nanosecond `pd.Timestamp`. -/
def TS_MAX_SERIAL : Int := Date.toSerial ⟨2262, 4, 11⟩

/-- The row-keeping test of `out = out[out["date"] >= start_ts]` after
`pd.to_datetime(..., errors="coerce")`: a date outside the `Timestamp`
range coerces to `NaT`, whose comparison is `False`; otherwise the test
is chronological. -/
def dateGeStart (d : Date) : Bool :=
  decide (TS_MIN_SERIAL ≤ d.toSerial ∧ d.toSerial ≤ TS_MAX_SERIAL) &&
    decide (START_SERIAL ≤ d.toSerial)

/-- One row of the converted daily table `out` (the derived
`Year`/`month`/`day` columns, plain projections of `date` used only for
CSV output, are not replicated). -/
structure DailyRow where
  date : Date
  tmin : Option ℚ
  tmax : Option ℚ
  prcp : Option ℚ
  snow : Option ℚ
  snwd : Option ℚ
  tavg : Option ℚ
  doy365 : Int
deriving DecidableEq, Repr

/-- The aggregated pivot cell for `(station, date, element)` under
`aggfunc="first"`: pandas `GroupBy.first` returns the first
non-missing value of the group in stream order (missing if none). -/
def firstValid (recs : List RawRecord) (st : List Char) (d : Date) (e : Elem) :
    Option Int :=
  ((recs.filter fun r => decide (r.station = st ∧ r.date = d ∧ r.element = e)).filterMap
    (fun r => r.raw)).head?

/-- Modelled from the spec: the "most-recent-wins" value for a
`(date, element)` pair — the last valid value in stream order.  This is
the aggregation the Series Builder is specified to use; it is compared
against `firstValid` from the code. -/
def specMostRecentValid (recs : List RawRecord) (st : List Char) (d : Date)
    (e : Elem) : Option Int :=
  ((recs.filter fun r => decide (r.station = st ∧ r.date = d ∧ r.element = e)).filterMap
    (fun r => r.raw)).getLast?

/-- Whether the pivot table retains a column for element `e`
(`pivot_table(..., dropna=True)` drops element columns whose aggregated
entries are all missing; `wide.get(col)` then yields `None`). -/
def colPresent (recs : List RawRecord) (e : Elem) : Bool :=
  recs.any fun r => decide (r.element = e) && r.raw.isSome

/-- Chronological comparison of wide-table keys (used by the final
`sort_values("date")`). -/
def keyDateLe (k k' : List Char × Date) : Prop :=
  k.2.toSerial ≤ k'.2.toSerial

instance : DecidableRel keyDateLe := fun _a _b => Int.decLe _ _

instance : IsTotal (List Char × Date) keyDateLe :=
  ⟨fun a b => Int.le_total a.2.toSerial b.2.toSerial⟩

instance : IsTrans (List Char × Date) keyDateLe :=
  ⟨fun _ _ _ h1 h2 => le_trans h1 h2⟩

/-- Lexicographic comparison of strings by code point. -/
def chLex : List Char → List Char → Bool
  | [], _ => true
  | _ :: _, [] => false
  | a :: as, b :: bs =>
    if a.toNat < b.toNat then true
    else if b.toNat < a.toNat then false
    else chLex as bs

/-- The `(station, date)` group-key order used by `pivot_table` when sorting
its row index. -/
def keyLexLe (k k' : List Char × Date) : Prop :=
  if k.1 = k'.1 then keyDateLe k k' else chLex k.1 k'.1 = true

instance : DecidableRel keyLexLe := fun _a _b => by
  unfold keyLexLe
  infer_instance

/-- The row index of the wide table: the distinct `(station, date)` pairs
having at least one non-missing aggregated cell (`pivot_table` with
`dropna=True` drops all-missing rows), ordered by the group-key sort of
the pivot followed by the stable `sort_values("date")`. -/
def wideKeys (recs : List RawRecord) : List (List Char × Date) :=
  List.insertionSort keyDateLe
    (List.insertionSort keyLexLe
      (((recs.filter fun r => r.raw.isSome).map fun r => (r.station, r.date)).dedup))

/-- The converter `c10`: divide a raw value by 10 when present. -/
def c10 (x : Option Int) : Option ℚ :=
  x.map fun v => (v : ℚ) / 10

/-- The derivation `(Tmin_C + Tmax_C) / 2.0` with missing-value propagation. -/
def mean2 (a b : Option ℚ) : Option ℚ :=
  match a, b with
  | some x, some y => some ((x + y) / 2)
  | _, _ => none

/-- One output row of `wide_and_convert` for wide-table key `k`:
TMIN/TMAX/PRCP/SNOW are divided by 10 via `c10`, SNWD is passed through
raw, `Tavg_C` is the mean of the converted min/max, and `DOY_365` comes
from `to_doy365`. -/
def mkRow (recs : List RawRecord) (k : List Char × Date) : DailyRow where
  date := k.2
  tmin := c10 (firstValid recs k.1 k.2 .TMIN)
  tmax := c10 (firstValid recs k.1 k.2 .TMAX)
  prcp := c10 (firstValid recs k.1 k.2 .PRCP)
  snow := c10 (firstValid recs k.1 k.2 .SNOW)
  snwd := (firstValid recs k.1 k.2 .SNWD).map fun v => (v : ℚ)
  tavg := mean2 (c10 (firstValid recs k.1 k.2 .TMIN)) (c10 (firstValid recs k.1 k.2 .TMAX))
  doy365 := to_doy365 k.2

/-- The stage `wide_and_convert`: pivot to one row per `(station, date)` key with
first-non-missing aggregation, convert units, derive `Tavg_C`, filter to
dates at or after `START_DATE`, and add `DOY_365`.  When any of the five
element columns is absent from the pivot (no non-missing value anywhere),
`wide.get(col)` returns `None` and `None.map(c10)` raises
`AttributeError`. -/
def wide_and_convert (recs : List RawRecord) : Except String (List DailyRow) :=
  if colPresent recs .TMIN && colPresent recs .TMAX && colPresent recs .PRCP &&
      colPresent recs .SNOW && colPresent recs .SNWD then
    .ok (((wideKeys recs).map (mkRow recs)).filter fun r => dateGeStart r.date)
  else .error "AttributeError"

/-- Dates of the daily table, in order. -/
def wideDates (recs : List RawRecord) : Except String (List Date) :=
  (wide_and_convert recs).map fun rows => rows.map fun r => r.date

/-- Chronological order on daily rows. -/
def rowDateLe (a b : DailyRow) : Prop :=
  a.date.toSerial ≤ b.date.toSerial

theorem mem_wideKeys (recs : List RawRecord) (k : List Char × Date) :
    k ∈ wideKeys recs ↔
      ∃ x ∈ recs, x.raw.isSome = true ∧ x.station = k.1 ∧ x.date = k.2 := by
  unfold wideKeys
  rw [List.mem_insertionSort, List.mem_insertionSort, List.mem_dedup]
  constructor
  · intro hk
    obtain ⟨x, hx, hxk⟩ := List.mem_map.mp hk
    obtain ⟨hxr, hxf⟩ := List.mem_filter.mp hx
    exact ⟨x, hxr, hxf, by rw [← hxk], by rw [← hxk]⟩
  · rintro ⟨x, hxr, hxs, hx1, hx2⟩
    refine List.mem_map.mpr ⟨x, List.mem_filter.mpr ⟨hxr, hxs⟩, ?_⟩
    obtain ⟨k1, k2⟩ := k
    simp_all

theorem wide_rows_eq (recs : List RawRecord) (rows : List DailyRow)
    (h : wide_and_convert recs = .ok rows) :
    rows = ((wideKeys recs).map (mkRow recs)).filter fun r => dateGeStart r.date := by
  unfold wide_and_convert at h
  split_ifs at h
  exact (Except.ok.inj h).symm

theorem mem_wideRows (recs : List RawRecord) (rows : List DailyRow)
    (h : wide_and_convert recs = .ok rows) (r : DailyRow) :
    r ∈ rows ↔
      (∃ k ∈ wideKeys recs, mkRow recs k = r) ∧ dateGeStart r.date = true := by
  rw [wide_rows_eq recs rows h, List.mem_filter, List.mem_map]

theorem row_eq_mkRow (recs : List RawRecord) (rows : List DailyRow) (s : List Char)
    (hst : ∀ x ∈ recs, x.station = s)
    (h : wide_and_convert recs = .ok rows) (r : DailyRow) (hr : r ∈ rows) :
    r = mkRow recs (s, r.date) := by
  obtain ⟨⟨k, hk, hkr⟩, -⟩ := (mem_wideRows recs rows h r).mp hr
  obtain ⟨x, hx, -, hx1, hx2⟩ := (mem_wideKeys recs k).mp hk
  obtain ⟨k1, k2⟩ := k
  have hk1 : k1 = s := by rw [← hst x hx]; exact hx1.symm
  subst hk1
  rw [← hkr]
  rfl

theorem row_exists (recs : List RawRecord) (rows : List DailyRow)
    (h : wide_and_convert recs = .ok rows) (d : Date) (x : RawRecord)
    (hx : x ∈ recs) (hxd : x.date = d) (hxs : x.raw.isSome = true)
    (hge : dateGeStart d = true) :
    ∃ r ∈ rows, r.date = d := by
  refine ⟨mkRow recs (x.station, d), ?_, rfl⟩
  rw [mem_wideRows recs rows h]
  exact ⟨⟨(x.station, d), (mem_wideKeys recs _).mpr ⟨x, hx, hxs, rfl, hxd⟩, rfl⟩, hge⟩

/-- All five element records for one date of the counterexample inputs. -/
def stationChars : List Char := "USW00013743".toList

/-- Shorthand for a parsed record of the counterexample inputs. -/
def mkRec (d : Date) (e : Elem) (v : Option Int) : RawRecord :=
  ⟨stationChars, d, e, v⟩

/-- Parsed records covering Jan 1 and Jan 3, 1995 for all five elements,
with no record at all for Jan 2. -/
def c2recs : List RawRecord :=
  [mkRec ⟨1995, 1, 1⟩ .TMIN (some (-50)), mkRec ⟨1995, 1, 1⟩ .TMAX (some 100),
   mkRec ⟨1995, 1, 1⟩ .PRCP (some 0), mkRec ⟨1995, 1, 1⟩ .SNOW (some 0),
   mkRec ⟨1995, 1, 1⟩ .SNWD (some 0),
   mkRec ⟨1995, 1, 3⟩ .TMIN (some (-30)), mkRec ⟨1995, 1, 3⟩ .TMAX (some 120),
   mkRec ⟨1995, 1, 3⟩ .PRCP (some 5), mkRec ⟨1995, 1, 3⟩ .SNOW (some 3),
   mkRec ⟨1995, 1, 3⟩ .SNWD (some 40)]

/-- C2 (counterexample): for input records on Jan 1 and Jan 3, 1995 only,
the daily table contains exactly the two dates Jan 1 and Jan 3 — Jan 2,
which lies strictly inside `[start_date, last_observed_date]`, receives
no entry at all (empty or otherwise), so the series has a date gap. -/
theorem c2_counterexample :
    wideDates c2recs = .ok [⟨1995, 1, 1⟩, ⟨1995, 1, 3⟩] ∧
    START_SERIAL ≤ Date.toSerial ⟨1995, 1, 2⟩ ∧
    Date.toSerial ⟨1995, 1, 2⟩ < Date.toSerial ⟨1995, 1, 3⟩ :=
  ⟨rfl, by decide, by decide⟩

/-- C2 (amended): the daily table built by `wide_and_convert` contains an
entry for a date `d` exactly when `d` is at/after the start date (and in
Timestamp range) and some input record carries a non-missing value for
`d`; no empty entries are inserted for absent dates, and the entries are
in chronological order. -/
theorem c2_amended (recs : List RawRecord) (rows : List DailyRow)
    (h : wide_and_convert recs = .ok rows) :
    (∀ d : Date, (∃ r ∈ rows, r.date = d) ↔
      (dateGeStart d = true ∧ ∃ x ∈ recs, x.date = d ∧ x.raw.isSome = true)) ∧
    List.Pairwise rowDateLe rows := by
  constructor
  · intro d
    constructor
    · rintro ⟨r, hr, rfl⟩
      obtain ⟨⟨k, hk, hkr⟩, hge⟩ := (mem_wideRows recs rows h r).mp hr
      obtain ⟨x, hx, hxs, -, hx2⟩ := (mem_wideKeys recs k).mp hk
      have hdate : r.date = k.2 := by rw [← hkr]; rfl
      exact ⟨hge, x, hx, by rw [hdate, ← hx2], hxs⟩
    · rintro ⟨hge, x, hx, hxd, hxs⟩
      exact row_exists recs rows h d x hx hxd hxs hge
  · rw [wide_rows_eq recs rows h]
    apply List.Pairwise.filter
    have hs : List.Sorted keyDateLe (wideKeys recs) :=
      List.sorted_insertionSort keyDateLe _
    exact hs.map (mkRow recs) (fun a b hab => hab)

/-- C2 (witness for the amended theorem): instantiated on `c2recs`; the
resulting two-row table has an entry for Jan 1 iff it should, and is
chronologically ordered. -/
theorem c2_amended_witness :
    wide_and_convert c2recs =
      .ok (((wideKeys c2recs).map (mkRow c2recs)).filter fun r => dateGeStart r.date) ∧
    ((∀ d : Date,
        (∃ r ∈ ((wideKeys c2recs).map (mkRow c2recs)).filter
            (fun r => dateGeStart r.date), r.date = d) ↔
        (dateGeStart d = true ∧ ∃ x ∈ c2recs, x.date = d ∧ x.raw.isSome = true)) ∧
      List.Pairwise rowDateLe
        (((wideKeys c2recs).map (mkRow c2recs)).filter fun r => dateGeStart r.date)) :=
  ⟨rfl, c2_amended c2recs _ rfl⟩

/-- Record stream holding two valid TMIN values for Jan 1, 1995: first
`-50`, later `-100` (plus one record for each other element so that the
conversion stage succeeds). -/
def c3recs : List RawRecord :=
  [mkRec ⟨1995, 1, 1⟩ .TMIN (some (-50)), mkRec ⟨1995, 1, 1⟩ .TMAX (some 100),
   mkRec ⟨1995, 1, 1⟩ .PRCP (some 0), mkRec ⟨1995, 1, 1⟩ .SNOW (some 0),
   mkRec ⟨1995, 1, 1⟩ .SNWD (some 0),
   mkRec ⟨1995, 1, 1⟩ .TMIN (some (-100))]

/-- C3 (counterexample): with two valid TMIN values `-50` then `-100` for
the same date, the daily table stores `-5.0` — the FIRST value divided by
10 — while most-recent-wins would store `-10.0`; `aggfunc="first"` is
first-valid-wins, not most-recent-wins. -/
theorem c3_counterexample :
    (wide_and_convert c3recs).map (fun rows => rows.map fun r => r.tmin) =
      .ok [some (((-50 : Int) : ℚ) / 10)] ∧
    ((-50 : Int) : ℚ) / 10 = -5 ∧
    c10 (specMostRecentValid c3recs stationChars ⟨1995, 1, 1⟩ .TMIN) =
      some (((-100 : Int) : ℚ) / 10) ∧
    ((-100 : Int) : ℚ) / 10 = -10 ∧
    (-5 : ℚ) ≠ -10 :=
  ⟨rfl, by norm_num, rfl, by norm_num, by norm_num⟩

/-- C3 (amended): for a single-station record stream, the value stored in
the daily table for a `(date, element)` pair is the FIRST valid
(non-missing) value occurring in the parsed stream for that pair, divided
by 10 for TMIN — missing values are skipped, and any later valid values
are ignored. -/
theorem c3_amended (recs : List RawRecord) (rows : List DailyRow) (s : List Char)
    (d : Date) (v : Int)
    (hst : ∀ x ∈ recs, x.station = s)
    (h : wide_and_convert recs = .ok rows)
    (hv : firstValid recs s d .TMIN = some v)
    (hge : dateGeStart d = true) :
    (∃ r ∈ rows, r.date = d) ∧
    ∀ r ∈ rows, r.date = d → r.tmin = some ((v : ℚ) / 10) := by
  have hex : ∃ x ∈ recs, x.station = s ∧ x.date = d ∧ x.element = Elem.TMIN ∧
      x.raw.isSome = true := by
    unfold firstValid at hv
    have hne : ((recs.filter fun r =>
        decide (r.station = s ∧ r.date = d ∧ r.element = Elem.TMIN)).filterMap
        (fun r => r.raw)) ≠ [] := by
      intro hemp
      rw [hemp] at hv
      exact Option.noConfusion hv
    obtain ⟨w, hw⟩ := List.exists_mem_of_ne_nil _ hne
    obtain ⟨x, hxf, hxw⟩ := List.mem_filterMap.mp hw
    obtain ⟨hxr, hxp⟩ := List.mem_filter.mp hxf
    obtain ⟨h1, h2, h3⟩ := of_decide_eq_true hxp
    exact ⟨x, hxr, h1, h2, h3, by rw [hxw]; rfl⟩
  obtain ⟨x, hx, hxs, hxd, -, hxsome⟩ := hex
  constructor
  · exact row_exists recs rows h d x hx hxd hxsome hge
  · intro r hr hrd
    have := row_eq_mkRow recs rows s hst h r hr
    rw [this, hrd]
    show c10 (firstValid recs s d .TMIN) = some ((v : ℚ) / 10)
    rw [hv]
    rfl

/-- C3 (witness for the amended theorem): on `c2recs` (single TMIN value
`-50` for Jan 1), the Jan 1 row stores `-5`. -/
theorem c3_amended_witness :
    (∀ x ∈ c2recs, x.station = stationChars) ∧
    wide_and_convert c2recs =
      .ok (((wideKeys c2recs).map (mkRow c2recs)).filter fun r => dateGeStart r.date) ∧
    firstValid c2recs stationChars ⟨1995, 1, 1⟩ .TMIN = some (-50) ∧
    dateGeStart ⟨1995, 1, 1⟩ = true ∧
    ((∃ r ∈ ((wideKeys c2recs).map (mkRow c2recs)).filter
        (fun r => dateGeStart r.date), r.date = (⟨1995, 1, 1⟩ : Date)) ∧
      ∀ r ∈ ((wideKeys c2recs).map (mkRow c2recs)).filter
        (fun r => dateGeStart r.date), r.date = (⟨1995, 1, 1⟩ : Date) →
          r.tmin = some (((-50 : Int) : ℚ) / 10)) :=
  ⟨by decide, rfl, rfl, by decide,
    c3_amended c2recs _ stationChars ⟨1995, 1, 1⟩ (-50) (by decide) rfl rfl (by decide)⟩

/-- C10 (confirmed): every row of the daily table carries
`TMIN/TMAX/PRCP/SNOW` raw values divided by 10, but the `SNWD` raw value
unchanged — the two snow fields use different scaling conventions. -/
theorem c10_conversion (recs : List RawRecord) (rows : List DailyRow)
    (s : List Char) (hst : ∀ x ∈ recs, x.station = s)
    (h : wide_and_convert recs = .ok rows) (r : DailyRow) (hr : r ∈ rows) :
    r.tmin = (firstValid recs s r.date .TMIN).map (fun v => (v : ℚ) / 10) ∧
    r.tmax = (firstValid recs s r.date .TMAX).map (fun v => (v : ℚ) / 10) ∧
    r.prcp = (firstValid recs s r.date .PRCP).map (fun v => (v : ℚ) / 10) ∧
    r.snow = (firstValid recs s r.date .SNOW).map (fun v => (v : ℚ) / 10) ∧
    r.snwd = (firstValid recs s r.date .SNWD).map (fun v => (v : ℚ)) := by
  have heq := row_eq_mkRow recs rows s hst h r hr
  rw [heq]
  exact ⟨rfl, rfl, rfl, rfl, rfl⟩

/-- Records for Jan 1, 1995 with raw `SNOW = 100` and raw `SNWD = 100`. -/
def c10recs : List RawRecord :=
  [mkRec ⟨1995, 1, 1⟩ .TMIN (some (-50)), mkRec ⟨1995, 1, 1⟩ .TMAX (some 100),
   mkRec ⟨1995, 1, 1⟩ .PRCP (some 7), mkRec ⟨1995, 1, 1⟩ .SNOW (some 100),
   mkRec ⟨1995, 1, 1⟩ .SNWD (some 100)]

/-- C10 (witness): on `c10recs`, raw `SNOW = 100` becomes `10` while raw
`SNWD = 100` stays `100`. -/
theorem c10_conversion_witness :
    (∀ x ∈ c10recs, x.station = stationChars) ∧
    wide_and_convert c10recs =
      .ok (((wideKeys c10recs).map (mkRow c10recs)).filter fun r => dateGeStart r.date) ∧
    mkRow c10recs (stationChars, ⟨1995, 1, 1⟩) ∈
      ((wideKeys c10recs).map (mkRow c10recs)).filter (fun r => dateGeStart r.date) ∧
    ((mkRow c10recs (stationChars, ⟨1995, 1, 1⟩)).snow =
        some (((100 : Int) : ℚ) / 10) ∧
      ((100 : Int) : ℚ) / 10 = 10 ∧
      (mkRow c10recs (stationChars, ⟨1995, 1, 1⟩)).snwd = some ((100 : Int) : ℚ) ∧
      ((100 : Int) : ℚ) = 100) ∧
    ((mkRow c10recs (stationChars, ⟨1995, 1, 1⟩)).tmin =
        (firstValid c10recs stationChars
          (mkRow c10recs (stationChars, ⟨1995, 1, 1⟩)).date .TMIN).map
          (fun v => (v : ℚ) / 10) ∧
      (mkRow c10recs (stationChars, ⟨1995, 1, 1⟩)).tmax =
        (firstValid c10recs stationChars
          (mkRow c10recs (stationChars, ⟨1995, 1, 1⟩)).date .TMAX).map
          (fun v => (v : ℚ) / 10) ∧
      (mkRow c10recs (stationChars, ⟨1995, 1, 1⟩)).prcp =
        (firstValid c10recs stationChars
          (mkRow c10recs (stationChars, ⟨1995, 1, 1⟩)).date .PRCP).map
          (fun v => (v : ℚ) / 10) ∧
      (mkRow c10recs (stationChars, ⟨1995, 1, 1⟩)).snow =
        (firstValid c10recs stationChars
          (mkRow c10recs (stationChars, ⟨1995, 1, 1⟩)).date .SNOW).map
          (fun v => (v : ℚ) / 10) ∧
      (mkRow c10recs (stationChars, ⟨1995, 1, 1⟩)).snwd =
        (firstValid c10recs stationChars
          (mkRow c10recs (stationChars, ⟨1995, 1, 1⟩)).date .SNWD).map
          (fun v => (v : ℚ))) :=
  ⟨by decide, rfl,
    List.mem_filter.mpr
      ⟨List.mem_map.mpr ⟨(stationChars, ⟨1995, 1, 1⟩), by decide, rfl⟩, by decide⟩,
    ⟨rfl, by norm_num, rfl, by norm_num⟩,
    c10_conversion c10recs _ stationChars (by decide) rfl _
      (List.mem_filter.mpr
        ⟨List.mem_map.mpr ⟨(stationChars, ⟨1995, 1, 1⟩), by decide, rfl⟩, by decide⟩)⟩

/-! ### Gap Interpolator (`impute_one_day_gaps`, lines 152-166) -/

instance : DecidableRel rowDateLe := fun _a _b => Int.decLe _ _

instance : IsTotal DailyRow rowDateLe :=
  ⟨fun a b => Int.le_total a.date.toSerial b.date.toSerial⟩

instance : IsTrans DailyRow rowDateLe :=
  ⟨fun _ _ _ h1 h2 => le_trans h1 h2⟩

/-- The five columns passed as `cols` by `main`
(`["Tmin_C", "Tmax_C", "PRCP_mm", "SNOW_mm", "SNWD_mm"]`). -/
inductive Col
  | tmin
  | tmax
  | prcp
  | snow
  | snwd
deriving DecidableEq, Repr

/-- Column read `df[col]`. -/
def DailyRow.getCol (r : DailyRow) : Col → Option ℚ
  | .tmin => r.tmin
  | .tmax => r.tmax
  | .prcp => r.prcp
  | .snow => r.snow
  | .snwd => r.snwd

/-- Column write (one row of `df[col] = s`). -/
def DailyRow.setCol (r : DailyRow) : Col → Option ℚ → DailyRow
  | .tmin, v => { r with tmin := v }
  | .tmax, v => { r with tmax := v }
  | .prcp, v => { r with prcp := v }
  | .snow, v => { r with snow := v }
  | .snwd, v => { r with snwd := v }

/-- One iteration `i` of the inner loop of `impute_one_day_gaps`: if the
series value at `i` is missing while both neighbours are present and both
date differences are exactly one day, overwrite index `i` with the
arithmetic mean of the neighbours; otherwise leave the series unchanged. -/
def imputeStep (dates : List Int) (s : List (Option ℚ)) (i : Nat) :
    List (Option ℚ) :=
  match s[i]?, s[i - 1]?, s[i + 1]?, dates[i]?, dates[i - 1]?, dates[i + 1]? with
  | some none, some (some a), some (some b), some d1, some d0, some d2 =>
    if d1 - d0 = 1 ∧ d2 - d1 = 1 then s.set i (some ((a + b) / 2)) else s
  | _, _, _, _, _, _ => s

/-- The whole inner loop `for i in range(1, len(df) - 1)` for one column:
the copied series `s` is mutated in place while the dates stay fixed. -/
def imputeCol (dates : List Int) (s : List (Option ℚ)) : List (Option ℚ) :=
  (List.range' 1 (s.length - 2)).foldl (imputeStep dates) s

/-- The `for col in cols` body: run the loop on column `c` of the frame
and assign the result back (`df[col] = s`). -/
def applyCol (rows : List DailyRow) (c : Col) : List DailyRow :=
  List.zipWith (fun r v => r.setCol c v) rows
    (imputeCol (rows.map fun r => r.date.toSerial) (rows.map fun r => r.getCol c))

/-- The interpolator `impute_one_day_gaps(df, cols)` as called from `main`: sort by date,
fill isolated one-day gaps independently for each of the five columns in
order, then recompute `Tavg_C = (Tmin_C + Tmax_C) / 2`. -/
def impute_one_day_gaps (rows : List DailyRow) : List DailyRow :=
  ([Col.tmin, Col.tmax, Col.prcp, Col.snow, Col.snwd].foldl applyCol
      (List.insertionSort rowDateLe rows)).map
    fun r => { r with tavg := mean2 r.tmin r.tmax }

theorem mem_range'_iff {m s n : Nat} :
    m ∈ List.range' s n ↔ s ≤ m ∧ m < s + n := by
  rw [List.mem_range']
  constructor
  · rintro ⟨i, hi, rfl⟩
    omega
  · intro h
    exact ⟨m - s, by omega, by omega⟩

theorem imputeStep_eq_or (dates : List Int) (s : List (Option ℚ)) (i : Nat) :
    imputeStep dates s i = s ∨
    (s[i]? = some none ∧ ∃ a b : ℚ, s[i - 1]? = some (some a) ∧
      s[i + 1]? = some (some b) ∧
      imputeStep dates s i = s.set i (some ((a + b) / 2))) := by
  unfold imputeStep
  split
  · rename_i a b d1 d0 d2 h1 h2 h3 h4 h5 h6
    split_ifs with hc
    · exact Or.inr ⟨h1, a, b, h2, h3, rfl⟩
    · exact Or.inl rfl
  · exact Or.inl rfl

theorem imputeStep_length (dates : List Int) (s : List (Option ℚ)) (i : Nat) :
    (imputeStep dates s i).length = s.length := by
  rcases imputeStep_eq_or dates s i with h | ⟨-, a, b, -, -, h⟩
  · rw [h]
  · rw [h, List.length_set]

theorem imputeStep_getElem?_ne (dates : List Int) (s : List (Option ℚ))
    {i j : Nat} (hij : i ≠ j) : (imputeStep dates s i)[j]? = s[j]? := by
  rcases imputeStep_eq_or dates s i with h | ⟨-, a, b, -, -, h⟩
  · rw [h]
  · rw [h, List.getElem?_set_ne hij]

theorem imputeStep_present (dates : List Int) (s : List (Option ℚ)) (i : Nat)
    {j : Nat} {v : ℚ} (hv : s[j]? = some (some v)) :
    (imputeStep dates s i)[j]? = some (some v) := by
  by_cases hij : i = j
  · subst hij
    rcases imputeStep_eq_or dates s i with h | ⟨hi, -, -, -, -, -⟩
    · rw [h, hv]
    · rw [hv] at hi
      simp at hi
  · rw [imputeStep_getElem?_ne dates s hij, hv]

theorem imputeStep_eq_of_left_missing (dates : List Int) (s : List (Option ℚ))
    (i : Nat) (h : s[i - 1]? = some none) : imputeStep dates s i = s := by
  rcases imputeStep_eq_or dates s i with he | ⟨-, a, b, ha, -, -⟩
  · exact he
  · rw [h] at ha
    simp at ha

theorem imputeStep_eq_of_right_missing (dates : List Int) (s : List (Option ℚ))
    (i : Nat) (h : s[i + 1]? = some none) : imputeStep dates s i = s := by
  rcases imputeStep_eq_or dates s i with he | ⟨-, a, b, -, hb, -⟩
  · exact he
  · rw [h] at hb
    simp at hb

theorem imputeStep_fire (dates : List Int) (s : List (Option ℚ)) (i : Nat)
    (a b : ℚ) (d0 d1 d2 : Int)
    (hsi : s[i]? = some none) (hsa : s[i - 1]? = some (some a))
    (hsb : s[i + 1]? = some (some b))
    (hd1 : dates[i]? = some d1) (hd0 : dates[i - 1]? = some d0)
    (hd2 : dates[i + 1]? = some d2) (hc1 : d1 - d0 = 1) (hc2 : d2 - d1 = 1) :
    imputeStep dates s i = s.set i (some ((a + b) / 2)) := by
  unfold imputeStep
  rw [hsi, hsa, hsb, hd1, hd0, hd2]
  simp [hc1, hc2]

theorem foldl_imputeStep_length (dates : List Int) (l : List Nat)
    (s : List (Option ℚ)) : (l.foldl (imputeStep dates) s).length = s.length := by
  induction l generalizing s with
  | nil => rfl
  | cons i l ih => rw [List.foldl_cons, ih, imputeStep_length]

theorem foldl_imputeStep_getElem?_notmem (dates : List Int) (l : List Nat)
    (s : List (Option ℚ)) (j : Nat) (hj : j ∉ l) :
    (l.foldl (imputeStep dates) s)[j]? = s[j]? := by
  induction l generalizing s with
  | nil => rfl
  | cons i l ih =>
    have hij : i ≠ j := by
      intro h
      subst h
      exact hj (List.mem_cons_self i l)
    rw [List.foldl_cons, ih _ (fun h => hj (List.mem_cons_of_mem i h)),
      imputeStep_getElem?_ne dates s hij]

theorem foldl_imputeStep_present (dates : List Int) (l : List Nat)
    (s : List (Option ℚ)) {j : Nat} {v : ℚ} (hv : s[j]? = some (some v)) :
    (l.foldl (imputeStep dates) s)[j]? = some (some v) := by
  induction l generalizing s with
  | nil => exact hv
  | cons i l ih =>
    rw [List.foldl_cons]
    exact ih _ (imputeStep_present dates s i hv)

theorem imputeCol_length (dates : List Int) (s : List (Option ℚ)) :
    (imputeCol dates s).length = s.length :=
  foldl_imputeStep_length dates _ s

theorem imputeCol_getElem?_zero (dates : List Int) (s : List (Option ℚ)) :
    (imputeCol dates s)[0]? = s[0]? := by
  apply foldl_imputeStep_getElem?_notmem
  intro h
  have := mem_range'_iff.mp h
  omega

theorem imputeCol_getElem?_last (dates : List Int) (s : List (Option ℚ)) :
    (imputeCol dates s)[s.length - 1]? = s[s.length - 1]? := by
  apply foldl_imputeStep_getElem?_notmem
  intro h
  have := mem_range'_iff.mp h
  omega

theorem range'_split_at (n i : Nat) (hi1 : 1 ≤ i) (hi2 : i < 1 + n) :
    List.range' 1 n = List.range' 1 (i - 1) ++ i :: List.range' (i + 1) (n - i) := by
  have h1 : i :: List.range' (i + 1) (n - i) = List.range' i (n - i + 1) := by
    rw [List.range'_succ]
  rw [h1]
  have h3 := List.range'_append_1 1 (i - 1) (n - i + 1)
  rw [show (1 : Nat) + (i - 1) = i by omega] at h3
  rw [h3]
  congr 1
  omega

theorem imputeCol_fill (dates : List Int) (s : List (Option ℚ)) (i : Nat)
    (a b : ℚ) (d0 d1 d2 : Int)
    (hi1 : 1 ≤ i) (hi2 : i + 1 < s.length)
    (hsi : s[i]? = some none) (hsa : s[i - 1]? = some (some a))
    (hsb : s[i + 1]? = some (some b))
    (hd1 : dates[i]? = some d1) (hd0 : dates[i - 1]? = some d0)
    (hd2 : dates[i + 1]? = some d2) (hc1 : d1 - d0 = 1) (hc2 : d2 - d1 = 1) :
    (imputeCol dates s)[i]? = some (some ((a + b) / 2)) := by
  unfold imputeCol
  rw [range'_split_at (s.length - 2) i hi1 (by omega), List.foldl_append,
    List.foldl_cons]
  have hpre_i :
      ((List.range' 1 (i - 1)).foldl (imputeStep dates) s)[i]? = s[i]? := by
    apply foldl_imputeStep_getElem?_notmem
    intro h
    have := mem_range'_iff.mp h
    omega
  have hpre_b :
      ((List.range' 1 (i - 1)).foldl (imputeStep dates) s)[i + 1]? = s[i + 1]? := by
    apply foldl_imputeStep_getElem?_notmem
    intro h
    have := mem_range'_iff.mp h
    omega
  have hpre_a :
      ((List.range' 1 (i - 1)).foldl (imputeStep dates) s)[i - 1]? =
        some (some a) :=
    foldl_imputeStep_present dates _ s hsa
  rw [imputeStep_fire dates _ i a b d0 d1 d2 (by rw [hpre_i, hsi]) hpre_a
    (by rw [hpre_b, hsb]) hd1 hd0 hd2 hc1 hc2]
  apply foldl_imputeStep_present
  exact List.getElem?_set_self
    (by rw [foldl_imputeStep_length]; omega)

theorem imputeCol_nofill (dates : List Int) (s : List (Option ℚ)) (i : Nat)
    (hi1 : 1 ≤ i) (hsi : s[i]? = some none)
    (hrun : s[i - 1]? = some none ∨ s[i + 1]? = some none) :
    (imputeCol dates s)[i]? = some none := by
  by_cases hm : i ∈ List.range' 1 (s.length - 2)
  case neg =>
    unfold imputeCol
    rw [foldl_imputeStep_getElem?_notmem dates _ s i hm, hsi]
  case pos =>
    have hmm := mem_range'_iff.mp hm
    unfold imputeCol
    rw [range'_split_at (s.length - 2) i hi1 (by omega), List.foldl_append,
      List.foldl_cons]
    have hpre_i :
        ((List.range' 1 (i - 1)).foldl (imputeStep dates) s)[i]? = s[i]? := by
      apply foldl_imputeStep_getElem?_notmem
      intro h
      have := mem_range'_iff.mp h
      omega
    have hstep :
        imputeStep dates ((List.range' 1 (i - 1)).foldl (imputeStep dates) s) i =
          (List.range' 1 (i - 1)).foldl (imputeStep dates) s := by
      rcases hrun with hL | hR
      · have hpre_l :
            ((List.range' 1 (i - 1)).foldl (imputeStep dates) s)[i - 1]? =
              some none := by
          rcases Nat.lt_or_ge 1 i with h2 | h2
          · have hps : List.range' 1 (i - 1) =
                List.range' 1 (i - 2) ++ [i - 1] := by
              have h3 := List.range'_append_1 1 (i - 2) 1
              rw [show (1 : Nat) + (i - 2) = i - 1 by omega] at h3
              rw [← h3]
              rfl
            rw [hps, List.foldl_append, List.foldl_cons, List.foldl_nil]
            have h0l :
                ((List.range' 1 (i - 2)).foldl (imputeStep dates) s)[i - 1]? =
                  s[i - 1]? := by
              apply foldl_imputeStep_getElem?_notmem
              intro h
              have := mem_range'_iff.mp h
              omega
            have h0i :
                ((List.range' 1 (i - 2)).foldl (imputeStep dates) s)[i]? =
                  s[i]? := by
              apply foldl_imputeStep_getElem?_notmem
              intro h
              have := mem_range'_iff.mp h
              omega
            rw [imputeStep_eq_of_right_missing dates _ (i - 1)
              (by rw [show i - 1 + 1 = i by omega, h0i, hsi]), h0l, hL]
          · have hi : i = 1 := by omega
            subst hi
            simpa using hL
        exact imputeStep_eq_of_left_missing dates _ i hpre_l
      · have hpre_r :
            ((List.range' 1 (i - 1)).foldl (imputeStep dates) s)[i + 1]? =
              s[i + 1]? := by
          apply foldl_imputeStep_getElem?_notmem
          intro h
          have := mem_range'_iff.mp h
          omega
        exact imputeStep_eq_of_right_missing dates _ i (by rw [hpre_r, hR])
    rw [hstep]
    rw [foldl_imputeStep_getElem?_notmem dates _ _ i
      (by intro h; have := mem_range'_iff.mp h; omega), hpre_i, hsi]

theorem setCol_date (r : DailyRow) (c : Col) (v : Option ℚ) :
    (r.setCol c v).date = r.date := by
  cases c <;> rfl

theorem getCol_setCol_self (r : DailyRow) (c : Col) (v : Option ℚ) :
    (r.setCol c v).getCol c = v := by
  cases c <;> rfl

theorem getCol_setCol_ne (r : DailyRow) {c c' : Col} (h : c' ≠ c) (v : Option ℚ) :
    (r.setCol c v).getCol c' = r.getCol c' := by
  cases c <;> cases c' <;> simp_all [DailyRow.setCol, DailyRow.getCol]

theorem getCol_tavgUpdate (r : DailyRow) (c : Col) (v : Option ℚ) :
    ({ r with tavg := v } : DailyRow).getCol c = r.getCol c := by
  cases c <;> rfl

theorem map_zipWith_setCol {γ : Type} (c : Col) (f : DailyRow → γ)
    (hf : ∀ r v, f (r.setCol c v) = f r) :
    ∀ (rows : List DailyRow) (vals : List (Option ℚ)),
      vals.length = rows.length →
      (List.zipWith (fun r v => r.setCol c v) rows vals).map f = rows.map f := by
  intro rows
  induction rows with
  | nil =>
    intro vals h
    simp
  | cons r rs ih =>
    intro vals h
    cases vals with
    | nil => simp at h
    | cons v vs =>
      simp only [List.zipWith_cons_cons, List.map_cons, hf]
      rw [ih vs (by simpa using h)]

theorem map_getCol_zipWith_setCol (c : Col) :
    ∀ (rows : List DailyRow) (vals : List (Option ℚ)),
      vals.length = rows.length →
      (List.zipWith (fun r v => r.setCol c v) rows vals).map
        (fun r => r.getCol c) = vals := by
  intro rows
  induction rows with
  | nil =>
    intro vals h
    cases vals with
    | nil => rfl
    | cons v vs => simp at h
  | cons r rs ih =>
    intro vals h
    cases vals with
    | nil => simp at h
    | cons v vs =>
      simp only [List.zipWith_cons_cons, List.map_cons, getCol_setCol_self]
      rw [ih vs (by simpa using h)]

theorem applyCol_map_of_invariant {γ : Type} (rows : List DailyRow) (c : Col)
    (f : DailyRow → γ) (hf : ∀ r v, f (r.setCol c v) = f r) :
    (applyCol rows c).map f = rows.map f := by
  unfold applyCol
  apply map_zipWith_setCol c f hf
  rw [imputeCol_length, List.length_map]

theorem applyCol_map_date (rows : List DailyRow) (c : Col) :
    (applyCol rows c).map (fun r => r.date) = rows.map (fun r => r.date) :=
  applyCol_map_of_invariant rows c _ (fun r v => setCol_date r c v)

theorem applyCol_map_serial (rows : List DailyRow) (c : Col) :
    (applyCol rows c).map (fun r => r.date.toSerial) =
      rows.map (fun r => r.date.toSerial) :=
  applyCol_map_of_invariant rows c _ (fun r v => by rw [setCol_date])

theorem applyCol_map_getCol_ne (rows : List DailyRow) {c c' : Col} (h : c' ≠ c) :
    (applyCol rows c).map (fun r => r.getCol c') =
      rows.map (fun r => r.getCol c') :=
  applyCol_map_of_invariant rows c _ (fun r v => getCol_setCol_ne r h v)

theorem applyCol_map_getCol_self (rows : List DailyRow) (c : Col) :
    (applyCol rows c).map (fun r => r.getCol c) =
      imputeCol (rows.map fun r => r.date.toSerial)
        (rows.map fun r => r.getCol c) := by
  unfold applyCol
  apply map_getCol_zipWith_setCol
  rw [imputeCol_length, List.length_map]

theorem impute_master (rows : List DailyRow)
    (hsrt : List.Sorted rowDateLe rows) :
    (∀ c : Col, (impute_one_day_gaps rows).map (fun r => r.getCol c) =
        imputeCol (rows.map fun r => r.date.toSerial)
          (rows.map fun r => r.getCol c)) ∧
    (impute_one_day_gaps rows).map (fun r => r.date) =
      rows.map (fun r => r.date) ∧
    ∀ r' ∈ impute_one_day_gaps rows, r'.tavg = mean2 r'.tmin r'.tmax := by
  unfold impute_one_day_gaps
  rw [hsrt.insertionSort_eq]
  simp only [List.foldl_cons, List.foldl_nil]
  refine ⟨?_, ?_, ?_⟩
  · intro c
    rw [List.map_map]
    have hcomp :
        ((fun r : DailyRow => r.getCol c) ∘
          fun r : DailyRow => { r with tavg := mean2 r.tmin r.tmax }) =
          fun r : DailyRow => r.getCol c := by
      funext r
      exact getCol_tavgUpdate r c _
    rw [hcomp]
    cases c
    · rw [applyCol_map_getCol_ne _ (by decide), applyCol_map_getCol_ne _ (by decide),
        applyCol_map_getCol_ne _ (by decide), applyCol_map_getCol_ne _ (by decide),
        applyCol_map_getCol_self]
    · rw [applyCol_map_getCol_ne _ (by decide), applyCol_map_getCol_ne _ (by decide),
        applyCol_map_getCol_ne _ (by decide), applyCol_map_getCol_self,
        applyCol_map_serial, applyCol_map_getCol_ne _ (by decide)]
    · rw [applyCol_map_getCol_ne _ (by decide), applyCol_map_getCol_ne _ (by decide),
        applyCol_map_getCol_self, applyCol_map_serial, applyCol_map_serial,
        applyCol_map_getCol_ne _ (by decide), applyCol_map_getCol_ne _ (by decide)]
    · rw [applyCol_map_getCol_ne _ (by decide), applyCol_map_getCol_self,
        applyCol_map_serial, applyCol_map_serial, applyCol_map_serial,
        applyCol_map_getCol_ne _ (by decide), applyCol_map_getCol_ne _ (by decide),
        applyCol_map_getCol_ne _ (by decide)]
    · rw [applyCol_map_getCol_self, applyCol_map_serial, applyCol_map_serial,
        applyCol_map_serial, applyCol_map_serial,
        applyCol_map_getCol_ne _ (by decide), applyCol_map_getCol_ne _ (by decide),
        applyCol_map_getCol_ne _ (by decide), applyCol_map_getCol_ne _ (by decide)]
  · rw [List.map_map]
    have hcomp :
        ((fun r : DailyRow => r.date) ∘
          fun r : DailyRow => { r with tavg := mean2 r.tmin r.tmax }) =
          fun r : DailyRow => r.date := rfl
    rw [hcomp, applyCol_map_date, applyCol_map_date, applyCol_map_date,
      applyCol_map_date, applyCol_map_date]
  · intro r' hr'
    obtain ⟨r, -, rfl⟩ := List.mem_map.mp hr'
    rfl

/-- C6 (confirmed): on a date-sorted daily table whose `Tavg_C` column is
the derived mean (as `wide_and_convert` guarantees), `impute_one_day_gaps`
(1) never modifies the values of the first or last row, even if missing,
(2) leaves every date unchanged,
(3) fills an interior row whose value for a field is missing, when the
rows for the immediately preceding and following calendar days are
present with present values, with exactly their arithmetic mean, and
(4) never fills a row missing a field whose predecessor or successor row
is also missing that field — so no member of a 2+ day gap is filled. -/
theorem c6_gap_interpolator (rows : List DailyRow)
    (hsrt : List.Sorted rowDateLe rows)
    (htavg : ∀ r ∈ rows, r.tavg = mean2 r.tmin r.tmax) :
    (∀ c : Col,
      ((impute_one_day_gaps rows)[0]?).map (fun r => r.getCol c) =
        (rows[0]?).map (fun r => r.getCol c) ∧
      ((impute_one_day_gaps rows)[rows.length - 1]?).map (fun r => r.getCol c) =
        (rows[rows.length - 1]?).map (fun r => r.getCol c)) ∧
    (((impute_one_day_gaps rows)[0]?).map (fun r => r.tavg) =
        (rows[0]?).map (fun r => r.tavg) ∧
      ((impute_one_day_gaps rows)[rows.length - 1]?).map (fun r => r.tavg) =
        (rows[rows.length - 1]?).map (fun r => r.tavg)) ∧
    ((impute_one_day_gaps rows).map (fun r => r.date) =
      rows.map (fun r => r.date)) ∧
    (∀ c : Col, ∀ i : Nat, ∀ rp rc rn : DailyRow, ∀ a b : ℚ,
      1 ≤ i →
      rows[i - 1]? = some rp → rows[i]? = some rc → rows[i + 1]? = some rn →
      rc.date.toSerial - rp.date.toSerial = 1 →
      rn.date.toSerial - rc.date.toSerial = 1 →
      rc.getCol c = none → rp.getCol c = some a → rn.getCol c = some b →
      ((impute_one_day_gaps rows)[i]?).map (fun r => r.getCol c) =
        some (some ((a + b) / 2))) ∧
    (∀ c : Col, ∀ i : Nat, 1 ≤ i →
      ((rows[i]?).map fun r => r.getCol c) = some none →
      (((rows[i - 1]?).map fun r => r.getCol c) = some none ∨
        ((rows[i + 1]?).map fun r => r.getCol c) = some none) →
      ((impute_one_day_gaps rows)[i]?).map (fun r => r.getCol c) = some none) := by
  obtain ⟨hcols, hdates, htv⟩ := impute_master rows hsrt
  have hgetc : ∀ (c : Col) (j : Nat),
      ((impute_one_day_gaps rows)[j]?).map (fun r => r.getCol c) =
        (imputeCol (rows.map fun r => r.date.toSerial)
          (rows.map fun r => r.getCol c))[j]? := by
    intro c j
    rw [← List.getElem?_map (fun r => r.getCol c) (impute_one_day_gaps rows) j,
      hcols c]
  have hlenR : (impute_one_day_gaps rows).length = rows.length := by
    have h := congrArg List.length hdates
    simpa using h
  have htavg_j : ∀ j : Nat,
      (((impute_one_day_gaps rows)[j]?).map (fun r => r.getCol Col.tmin) =
        (rows[j]?).map fun r => r.getCol Col.tmin) →
      (((impute_one_day_gaps rows)[j]?).map (fun r => r.getCol Col.tmax) =
        (rows[j]?).map fun r => r.getCol Col.tmax) →
      ((impute_one_day_gaps rows)[j]?).map (fun r => r.tavg) =
        (rows[j]?).map (fun r => r.tavg) := by
    intro j h1 h2
    cases hR : (impute_one_day_gaps rows)[j]? with
    | none =>
      have hrj : rows[j]? = none := by
        rw [List.getElem?_eq_none_iff] at hR ⊢
        omega
      rw [hrj]
    | some r1 =>
      have hmem : r1 ∈ impute_one_day_gaps rows := List.getElem?_mem hR
      have hjlt : j < rows.length := by
        obtain ⟨hlt, -⟩ := List.getElem?_eq_some_iff.mp hR
        omega
      obtain ⟨r, hr⟩ : ∃ r, rows[j]? = some r :=
        ⟨rows[j], List.getElem?_eq_getElem hjlt⟩
      rw [hR, hr] at h1 h2
      rw [hr]
      simp only [Option.map_some'] at h1 h2 ⊢
      have e1 : r1.tmin = r.tmin := by
        simpa [DailyRow.getCol] using h1
      have e2 : r1.tmax = r.tmax := by
        simpa [DailyRow.getCol] using h2
      rw [htv r1 hmem, htavg r (List.getElem?_mem hr), e1, e2]
  have hfirstlast : ∀ c : Col,
      ((impute_one_day_gaps rows)[0]?).map (fun r => r.getCol c) =
        (rows[0]?).map (fun r => r.getCol c) ∧
      ((impute_one_day_gaps rows)[rows.length - 1]?).map (fun r => r.getCol c) =
        (rows[rows.length - 1]?).map (fun r => r.getCol c) := by
    intro c
    constructor
    · rw [hgetc c 0, imputeCol_getElem?_zero, List.getElem?_map]
    · have hlast := imputeCol_getElem?_last
        (rows.map fun r => r.date.toSerial) (rows.map fun r => r.getCol c)
      rw [List.length_map] at hlast
      rw [hgetc c (rows.length - 1), hlast, List.getElem?_map]
  refine ⟨hfirstlast, ⟨?_, ?_⟩, hdates, ?_, ?_⟩
  · exact htavg_j 0 (hfirstlast Col.tmin).1 (hfirstlast Col.tmax).1
  · exact htavg_j (rows.length - 1) (hfirstlast Col.tmin).2 (hfirstlast Col.tmax).2
  · intro c i rp rc rn a b hi1 hp hcm hn hd1 hd2 hcnone hpa hnb
    rw [hgetc c i]
    have hn' : i + 1 < rows.length := by
      obtain ⟨hlt, -⟩ := List.getElem?_eq_some_iff.mp hn
      omega
    apply imputeCol_fill (rows.map fun r => r.date.toSerial)
      (rows.map fun r => r.getCol c) i a b
      rp.date.toSerial rc.date.toSerial rn.date.toSerial hi1
    · rw [List.length_map]
      exact hn'
    · rw [List.getElem?_map, hcm, Option.map_some', hcnone]
    · rw [List.getElem?_map, hp, Option.map_some', hpa]
    · rw [List.getElem?_map, hn, Option.map_some', hnb]
    · rw [List.getElem?_map, hcm, Option.map_some']
    · rw [List.getElem?_map, hp, Option.map_some']
    · rw [List.getElem?_map, hn, Option.map_some']
    · exact hd1
    · exact hd2
  · intro c i hi1 hmid hrun
    rw [hgetc c i]
    apply imputeCol_nofill _ _ i hi1
    · rw [List.getElem?_map]
      exact hmid
    · rcases hrun with h | h
      · exact Or.inl (by rw [List.getElem?_map]; exact h)
      · exact Or.inr (by rw [List.getElem?_map]; exact h)

/-- A daily row with only the `Tmin_C` value possibly set, its `Tavg_C`
the derived mean, used to exercise the interpolator. -/
def mkDR (d : Date) (tn : Option ℚ) : DailyRow :=
  { date := d, tmin := tn, tmax := none, prcp := none, snow := none,
    snwd := none, tavg := mean2 tn none, doy365 := to_doy365 d }

/-- Three consecutive days with the middle `Tmin_C` missing. -/
def c6rows : List DailyRow :=
  [mkDR ⟨1995, 1, 1⟩ (some (-5)), mkDR ⟨1995, 1, 2⟩ none,
    mkDR ⟨1995, 1, 3⟩ (some (-3))]

/-- C6 (witness): the interpolator theorem instantiated on the sorted
three-day series `c6rows`. -/
theorem c6_gap_interpolator_witness :
    List.Sorted rowDateLe c6rows ∧
    (∀ r ∈ c6rows, r.tavg = mean2 r.tmin r.tmax) ∧
    ((∀ c : Col,
        ((impute_one_day_gaps c6rows)[0]?).map (fun r => r.getCol c) =
          (c6rows[0]?).map (fun r => r.getCol c) ∧
        ((impute_one_day_gaps c6rows)[c6rows.length - 1]?).map
            (fun r => r.getCol c) =
          (c6rows[c6rows.length - 1]?).map (fun r => r.getCol c)) ∧
      (((impute_one_day_gaps c6rows)[0]?).map (fun r => r.tavg) =
          (c6rows[0]?).map (fun r => r.tavg) ∧
        ((impute_one_day_gaps c6rows)[c6rows.length - 1]?).map
            (fun r => r.tavg) =
          (c6rows[c6rows.length - 1]?).map (fun r => r.tavg)) ∧
      ((impute_one_day_gaps c6rows).map (fun r => r.date) =
        c6rows.map (fun r => r.date)) ∧
      (∀ c : Col, ∀ i : Nat, ∀ rp rc rn : DailyRow, ∀ a b : ℚ,
        1 ≤ i →
        c6rows[i - 1]? = some rp → c6rows[i]? = some rc →
        c6rows[i + 1]? = some rn →
        rc.date.toSerial - rp.date.toSerial = 1 →
        rn.date.toSerial - rc.date.toSerial = 1 →
        rc.getCol c = none → rp.getCol c = some a → rn.getCol c = some b →
        ((impute_one_day_gaps c6rows)[i]?).map (fun r => r.getCol c) =
          some (some ((a + b) / 2))) ∧
      (∀ c : Col, ∀ i : Nat, 1 ≤ i →
        ((c6rows[i]?).map fun r => r.getCol c) = some none →
        (((c6rows[i - 1]?).map fun r => r.getCol c) = some none ∨
          ((c6rows[i + 1]?).map fun r => r.getCol c) = some none) →
        ((impute_one_day_gaps c6rows)[i]?).map (fun r => r.getCol c) =
          some none)) :=
  ⟨by decide,
   by
    intro r hr
    simp only [c6rows, mkDR, List.mem_cons, List.not_mem_nil, or_false] at hr
    rcases hr with rfl | rfl | rfl <;> rfl,
   c6_gap_interpolator c6rows (by decide)
     (by
      intro r hr
      simp only [c6rows, mkDR, List.mem_cons, List.not_mem_nil, or_false] at hr
      rcases hr with rfl | rfl | rfl <;> rfl)⟩

/-! ### Climatology Aggregator (`build_percentiles`, lines 179-199) -/

/-- Linear interpolation between order statistics of `ys` at fractional
position `h`: `ys[floor h] + frac * (ys[floor h + 1] - ys[floor h])`. -/
def quantileAt (ys : List ℚ) (h : ℚ) : ℚ :=
  ys.getD ⌊h⌋₊ 0 +
    (h - (⌊h⌋₊ : ℚ)) * (ys.getD (⌊h⌋₊ + 1) (ys.getD ⌊h⌋₊ 0) - ys.getD ⌊h⌋₊ 0)

/-- Pandas `Series.quantile(q)` with its default linear interpolation
(the library call used by `build_percentiles`): sort the sample and
interpolate between order statistics at position `q * (n - 1)`. -/
def quantile (xs : List ℚ) (q : ℚ) : ℚ :=
  quantileAt (List.insertionSort (fun a b : ℚ => a ≤ b) xs)
    (q * ((xs.length : ℚ) - 1))

/-- The `(p10, p50, p90)` cells for one metric of one group: explicitly
missing when the group has no non-missing values. -/
def pctlTriple (vals : List ℚ) : Option ℚ × Option ℚ × Option ℚ :=
  if vals = [] then (none, none, none)
  else
    (some (quantile vals (1 / 10)), some (quantile vals (1 / 2)),
      some (quantile vals (9 / 10)))

/-- The non-missing values of one metric within a group, in row order
(`g[m].dropna()`). -/
def groupVals (g : List DailyRow) (f : DailyRow → Option ℚ) : List ℚ :=
  (g.map f).filterMap id

/-- One output row of `build_percentiles`: `DOY_365` plus
`p10/p50/p90` for each of the six metrics. -/
structure PctlRow where
  doy : Int
  tmin_p10 : Option ℚ
  tmin_p50 : Option ℚ
  tmin_p90 : Option ℚ
  tmax_p10 : Option ℚ
  tmax_p50 : Option ℚ
  tmax_p90 : Option ℚ
  tavg_p10 : Option ℚ
  tavg_p50 : Option ℚ
  tavg_p90 : Option ℚ
  prcp_p10 : Option ℚ
  prcp_p50 : Option ℚ
  prcp_p90 : Option ℚ
  snow_p10 : Option ℚ
  snow_p50 : Option ℚ
  snow_p90 : Option ℚ
  snwd_p10 : Option ℚ
  snwd_p50 : Option ℚ
  snwd_p90 : Option ℚ
deriving DecidableEq, Repr

/-- The percentile row for day-of-year group `k`. -/
def mkPctlRow (k : Int) (g : List DailyRow) : PctlRow where
  doy := k
  tmin_p10 := (pctlTriple (groupVals g fun r => r.tmin)).1
  tmin_p50 := (pctlTriple (groupVals g fun r => r.tmin)).2.1
  tmin_p90 := (pctlTriple (groupVals g fun r => r.tmin)).2.2
  tmax_p10 := (pctlTriple (groupVals g fun r => r.tmax)).1
  tmax_p50 := (pctlTriple (groupVals g fun r => r.tmax)).2.1
  tmax_p90 := (pctlTriple (groupVals g fun r => r.tmax)).2.2
  tavg_p10 := (pctlTriple (groupVals g fun r => r.tavg)).1
  tavg_p50 := (pctlTriple (groupVals g fun r => r.tavg)).2.1
  tavg_p90 := (pctlTriple (groupVals g fun r => r.tavg)).2.2
  prcp_p10 := (pctlTriple (groupVals g fun r => r.prcp)).1
  prcp_p50 := (pctlTriple (groupVals g fun r => r.prcp)).2.1
  prcp_p90 := (pctlTriple (groupVals g fun r => r.prcp)).2.2
  snow_p10 := (pctlTriple (groupVals g fun r => r.snow)).1
  snow_p50 := (pctlTriple (groupVals g fun r => r.snow)).2.1
  snow_p90 := (pctlTriple (groupVals g fun r => r.snow)).2.2
  snwd_p10 := (pctlTriple (groupVals g fun r => r.snwd)).1
  snwd_p50 := (pctlTriple (groupVals g fun r => r.snwd)).2.1
  snwd_p90 := (pctlTriple (groupVals g fun r => r.snwd)).2.2

/-- The aggregator `build_percentiles`: recompute `DOY_365` via `to_doy365`, group by it
(pandas `groupby` sorts the keys ascending and keeps row order within a
group), and emit one percentile row per key.  On an empty daily table the
final `pd.DataFrame(rows).sort_values("DOY_365")` raises
a `KeyError` on `DOY_365` because the empty frame has no columns. -/
def build_percentiles (rows : List DailyRow) : Except String (List PctlRow) :=
  if rows.isEmpty then .error "KeyError: DOY_365"
  else
    .ok ((List.insertionSort (fun a b : Int => a ≤ b)
        ((rows.map fun r => to_doy365 r.date).dedup)).map
      fun k => mkPctlRow k (rows.filter fun r => decide (to_doy365 r.date = k)))

/-! ### Main control flow (`main`, lines 217-242) -/

/-- Observable outcome of one run of `main`: the stay-up no-op (exit 0
with no outputs), a completed run that wrote the daily and climatology
tables, or an uncaught Python exception. -/
inductive RunResult
  | noop
  | completed (daily : List DailyRow) (pctl : List PctlRow)
  | crashed (msg : String)

/-- The data pipeline of `main` on raw text:
`parse_dly_to_df` → `wide_and_convert` → `impute_one_day_gaps` →
`build_percentiles` → write outputs. -/
def runPipeline (text : List Char) : RunResult :=
  match parse_dly_to_df text with
  | .error e => .crashed e
  | .ok recs =>
    match wide_and_convert recs with
    | .error e => .crashed e
    | .ok daily0 =>
      match build_percentiles (impute_one_day_gaps daily0) with
      | .error e => .crashed e
      | .ok pctl => .completed (impute_one_day_gaps daily0) pctl

/-- The entry point `main`: run the pipeline on the fetched text, else on the cached
text, else no-op with exit status 0. -/
def runMain (fetched cached : Option (List Char)) : RunResult :=
  match fetched with
  | some text => runPipeline text
  | none =>
    match cached with
    | some text => runPipeline text
    | none => .noop

theorem quantile_eval (xs : List ℚ) (q h : ℚ) (ys : List ℚ) (i : Nat)
    (lo hi : ℚ)
    (hys : List.insertionSort (fun a b : ℚ => a ≤ b) xs = ys)
    (hh : q * ((xs.length : ℚ) - 1) = h)
    (hfl : ⌊h⌋₊ = i)
    (hlo : ys.getD i 0 = lo)
    (hhi : ys.getD (i + 1) lo = hi) :
    quantile xs q = lo + (h - (i : ℚ)) * (hi - lo) := by
  unfold quantile quantileAt
  rw [hys, hh, hfl, hlo, hhi]

/-- A daily row for Jan 1 of year `y` carrying only a `Tmin_C` value. -/
def c9row (y : Int) (tn : Option ℚ) : DailyRow :=
  { date := ⟨y, 1, 1⟩, tmin := tn, tmax := none, prcp := none, snow := none,
    snwd := none, tavg := none, doy365 := 1 }

/-- Eleven Jan-1 rows (one day-of-year group): `Tmin_C` values 1..10 plus
one missing value. -/
def c9rows : List DailyRow :=
  [c9row 1995 (some 1), c9row 1996 (some 2), c9row 1997 (some 3),
   c9row 1998 (some 4), c9row 1999 (some 5), c9row 2000 (some 6),
   c9row 2001 (some 7), c9row 2002 (some 8), c9row 2003 (some 9),
   c9row 2004 (some 10), c9row 2005 none]

/-- C9 (confirmed): the Climatology Aggregator computes the
10th/50th/90th percentiles of the non-missing values of each group by
linear interpolation between order statistics at position `q*(n-1)`: on
the group with `Tmin_C` samples `[1..10]` (an 11th missing value is
dropped) it yields `p10 = 1.9`, `p50 = 5.5`, `p90 = 9.1`, and a metric
with no values (here `Tmax_C`) gets an explicitly missing aggregate. -/
theorem c9_percentile_linear :
    (build_percentiles c9rows).map
        (fun l => l.map fun p => (p.doy, p.tmin_p10, p.tmin_p50, p.tmin_p90)) =
      .ok [((1 : Int),
        some (quantile [1, 2, 3, 4, 5, 6, 7, 8, 9, 10] (1 / 10)),
        some (quantile [1, 2, 3, 4, 5, 6, 7, 8, 9, 10] (1 / 2)),
        some (quantile [1, 2, 3, 4, 5, 6, 7, 8, 9, 10] (9 / 10)))] ∧
    quantile [1, 2, 3, 4, 5, 6, 7, 8, 9, 10] (1 / 10) = 19 / 10 ∧
    quantile [1, 2, 3, 4, 5, 6, 7, 8, 9, 10] (1 / 2) = 11 / 2 ∧
    quantile [1, 2, 3, 4, 5, 6, 7, 8, 9, 10] (9 / 10) = 91 / 10 ∧
    (build_percentiles c9rows).map (fun l => l.map fun p => p.tmax_p50) =
      .ok [none] := by
  refine ⟨rfl, ?_, ?_, ?_, rfl⟩
  · rw [quantile_eval [1, 2, 3, 4, 5, 6, 7, 8, 9, 10] (1 / 10) (9 / 10)
      [1, 2, 3, 4, 5, 6, 7, 8, 9, 10] 0 1 2 rfl (by norm_num)
      (by rw [Nat.floor_eq_iff (by norm_num)]; norm_num) rfl rfl]
    push_cast
    norm_num
  · rw [quantile_eval [1, 2, 3, 4, 5, 6, 7, 8, 9, 10] (1 / 2) (9 / 2)
      [1, 2, 3, 4, 5, 6, 7, 8, 9, 10] 4 5 6 rfl (by norm_num)
      (by rw [Nat.floor_eq_iff (by norm_num)]; norm_num) rfl rfl]
    push_cast
    norm_num
  · rw [quantile_eval [1, 2, 3, 4, 5, 6, 7, 8, 9, 10] (9 / 10) (81 / 10)
      [1, 2, 3, 4, 5, 6, 7, 8, 9, 10] 8 9 10 rfl (by norm_num)
      (by rw [Nat.floor_eq_iff (by norm_num)]; norm_num) rfl rfl]
    push_cast
    norm_num

set_option maxRecDepth 100000 in
/-- C5 (counterexample): on the exact end-to-end scenario input — one
raw `.dly` line for station USW00013743, January 1995, TMIN values
`-50, -9999, -30` — the pipeline does not yield any `Tmin_C` series at
all: the TMIN-only pivot has no TMAX/PRCP/SNOW/SNWD columns, so
`wide.get("TMAX")` returns `None` and `None.map(c10)` raises an uncaught
`AttributeError`, crashing the run before interpolation. -/
theorem c5_counterexample :
    runMain (some c5text.toList) none = .crashed "AttributeError" := rfl

set_option maxRecDepth 100000 in
/-- C5 (amended): the parser does map the raw sentinel `-9999` to a
missing value rather than `-999.9` — days 1-3 of the scenario parse to
raw TMIN values `-50`, missing, `-30` — but the pipeline then aborts
with an uncaught `AttributeError` in the conversion stage (the four
other element columns are absent from the TMIN-only pivot), so no
`Tmin_C` series `[-5.0, -4.0, -3.0]` and no interpolation flag are
produced; this pipeline has no `ImputedTempFlag` column at all. -/
theorem c5_amended :
    (parse_dly_to_df c5text.toList).map (fun recs => recs.take 3) =
      .ok [⟨stationChars, ⟨1995, 1, 1⟩, .TMIN, some (-50)⟩,
           ⟨stationChars, ⟨1995, 1, 2⟩, .TMIN, none⟩,
           ⟨stationChars, ⟨1995, 1, 3⟩, .TMIN, some (-30)⟩] ∧
    runMain (some c5text.toList) none = .crashed "AttributeError" :=
  ⟨rfl, rfl⟩

/-- One full-width December 1994 `.dly` line for element `e` with a
valid raw value 100 on day 1 and the missing sentinel elsewhere. -/
def c4line (e : String) : String :=
  "USW00013743" ++ "199412" ++ e ++ "  100   " ++
    String.join (List.replicate 30 "-9999   ")

/-- Valid observations for all five elements, all dated before the
configured start date 1995-01-01. -/
def c4text : String :=
  c4line "TMIN" ++ "\n" ++ c4line "TMAX" ++ "\n" ++ c4line "PRCP" ++ "\n" ++
    c4line "SNOW" ++ "\n" ++ c4line "SNWD"

set_option maxRecDepth 400000 in
/-- C4 (counterexample): with valid observations existing only before the
start date — the "no data at/after start" condition — the run does not
fail with any explicit "no data" error: it aborts with an uncaught
`KeyError` on `DOY_365` raised by `sort_values` on the empty percentile
frame.  The genuinely distinct "network unavailable, no cache" outcome
is a clean no-op exit. -/
theorem c4_counterexample :
    runMain (some c4text.toList) none = .crashed "KeyError: DOY_365" ∧
    runMain none none = .noop :=
  ⟨rfl, rfl⟩

theorem runPipeline_def (text : List Char) :
    runPipeline text =
      match parse_dly_to_df text with
      | .error e => .crashed e
      | .ok recs =>
        match wide_and_convert recs with
        | .error e => .crashed e
        | .ok daily0 =>
          match build_percentiles (impute_one_day_gaps daily0) with
          | .error e => .crashed e
          | .ok pctl => .completed (impute_one_day_gaps daily0) pctl := rfl

/-- C4 (amended): whenever the parsed stream has zero valid observations
dated at or after the start date, the run always terminates with an
uncaught exception — `AttributeError` when some element column is
entirely missing, otherwise `KeyError` from the percentile stage on the
empty filtered table — never with an explicit "no data" error and never
as a silently-empty successful run. -/
theorem c4_amended (text : List Char) (cache : Option (List Char))
    (recs : List RawRecord)
    (hp : parse_dly_to_df text = .ok recs)
    (hnone : ∀ x ∈ recs, x.raw.isSome = true → x.date.toSerial < START_SERIAL) :
    ∃ msg : String, runMain (some text) cache = .crashed msg := by
  show ∃ msg : String, runPipeline text = .crashed msg
  by_cases hw : (colPresent recs .TMIN && colPresent recs .TMAX &&
      colPresent recs .PRCP && colPresent recs .SNOW &&
      colPresent recs .SNWD) = true
  · have hrows :
        (((wideKeys recs).map (mkRow recs)).filter fun r => dateGeStart r.date)
          = [] := by
      rw [List.filter_eq_nil_iff]
      intro r hr
      obtain ⟨k, hk, hkr⟩ := List.mem_map.mp hr
      obtain ⟨x, hx, hxs, hx1, hx2⟩ := (mem_wideKeys recs k).mp hk
      have hser := hnone x hx hxs
      have hdate : r.date = x.date := by
        rw [← hkr, hx2]
        rfl
      simp only [dateGeStart, hdate, Bool.and_eq_true, decide_eq_true_eq]
      intro hcon
      omega
    have hwide : wide_and_convert recs = .ok [] := by
      unfold wide_and_convert
      rw [if_pos hw, hrows]
    refine ⟨"KeyError: DOY_365", ?_⟩
    rw [runPipeline_def]
    simp only [hp, hwide]
    rfl
  · have hwide : wide_and_convert recs = .error "AttributeError" := by
      unfold wide_and_convert
      rw [if_neg]
      simpa using hw
    refine ⟨"AttributeError", ?_⟩
    rw [runPipeline_def]
    simp only [hp, hwide]

set_option maxRecDepth 100000 in
/-- C4 (witness for the amended theorem): instantiated on `c4text`
(valid values for all five elements, all in December 1994). -/
theorem c4_amended_witness :
    parse_dly_to_df c4text.toList =
      .ok ((parse_dly_to_df c4text.toList).toOption.getD []) ∧
    (∀ x ∈ (parse_dly_to_df c4text.toList).toOption.getD [],
      x.raw.isSome = true → x.date.toSerial < START_SERIAL) ∧
    ∃ msg : String, runMain (some c4text.toList) none = .crashed msg :=
  ⟨rfl, by decide, c4_amended c4text.toList none _ rfl (by decide)⟩

/-- C8 (confirmed): in a non-leap year `to_doy365` is the plain 1-based
ordinal day of year; in a leap year Feb 28 maps to 59, Mar 1 maps to 60,
and every date from Mar 1 on maps to its 366-based ordinal minus 1. -/
theorem c8_doy365_ordinal (d : Date) (h : d.valid = true) :
    (isLeapYear d.year = false → to_doy365 d = dayOfYear d) ∧
    (isLeapYear d.year = true →
      ((d.month = 2 ∧ d.day = 28 → to_doy365 d = 59) ∧
       (d.month = 3 ∧ d.day = 1 → to_doy365 d = 60) ∧
       (3 ≤ d.month → to_doy365 d = dayOfYear d - 1))) := by
  rw [date_valid_iff] at h
  obtain ⟨y, m, dd⟩ := d
  simp only at h
  obtain ⟨hy1, hy2, hm1, hm2, hd1, hd2⟩ := h
  cases hL : isLeapYear y <;>
    interval_cases m <;>
    (simp_all [to_doy365, dayOfYear, cumDays, daysInMonth]; try omega)

/-- C8 (witness): instantiated at Mar 1 of the leap year 2020, whose
366-based ordinal is 61 and whose normalised index is 60. -/
theorem c8_doy365_ordinal_witness :
    Date.valid ⟨2020, 3, 1⟩ = true ∧
    ((isLeapYear (2020 : Int) = false →
        to_doy365 ⟨2020, 3, 1⟩ = dayOfYear ⟨2020, 3, 1⟩) ∧
     (isLeapYear (2020 : Int) = true →
       (((⟨2020, 3, 1⟩ : Date).month = 2 ∧ (⟨2020, 3, 1⟩ : Date).day = 28 →
           to_doy365 ⟨2020, 3, 1⟩ = 59) ∧
        ((⟨2020, 3, 1⟩ : Date).month = 3 ∧ (⟨2020, 3, 1⟩ : Date).day = 1 →
           to_doy365 ⟨2020, 3, 1⟩ = 60) ∧
        (3 ≤ (⟨2020, 3, 1⟩ : Date).month →
           to_doy365 ⟨2020, 3, 1⟩ = dayOfYear ⟨2020, 3, 1⟩ - 1)))) :=
  ⟨by decide, c8_doy365_ordinal ⟨2020, 3, 1⟩ (by decide)⟩

end ArlingtonWeather
